import Mathlib

set_option maxRecDepth 8000

/-- One playlist entry as probed from a media file. The C struct Track is used
through the fields name, uri, length (duration in seconds, unknown until
probed, default 0), lufs (integrated loudness) and peak. Doubles are embedded
as rationals. -/
structure Track where
  name : String
  uri : String
  length : Rat
  lufs : Rat
  peak : Rat
deriving DecidableEq

/-- Transport state of the player (PLAY_STATE_STOP, PLAY, PAUSE). -/
inductive PlayState where
  | stop
  | play
  | pause
deriving DecidableEq

/-- Mutable state of the mpv-backed player (struct Player): the fields written
by player.c and transport.c. current is the weak reference to the loaded track,
position is the last stored time-pos, marker is the bookmark, rtn the
return-to-mark flag, min_lufs the loudness floor mirrored from the tracklist. -/
structure Player where
  current : Option Track
  loop_start : Rat
  loop_stop : Rat
  marker : Rat
  play_state : PlayState
  position : Rat
  rtn : Bool
  min_lufs : Rat
deriving DecidableEq

/-- player_init (player.c lines 169 to 195). The C code does not initialize
min_lufs; the indeterminate initial value is passed in explicitly. -/
def player_init (uninitMinLufs : Rat) : Player :=
  { current := none, loop_start := 0, loop_stop := 0, marker := 0,
    play_state := PlayState.stop, position := 0, rtn := false,
    min_lufs := uninitMinLufs }

/-- player_update (player.c lines 94 to 99): a synchronous mpv_get_property of
time-pos. The value held by the backend at the moment of the call is the
backendPos argument; it is stored into the position field, and the C return
value equals that new position field. -/
def player_update (s : Player) (backendPos : Rat) : Player :=
  { s with position := backendPos }

/-- player_loop (player.c lines 49 to 72): the ab-loop three-phase cycle. The C
conditions test the truthiness of the doubles loop_start and loop_stop, that
is, whether they are nonzero. Branches two and three call player_update, which
also stores backendPos into position. -/
def player_loop (s : Player) (backendPos : Rat) : Player :=
  if s.loop_start ≠ 0 ∧ s.loop_stop ≠ 0 then
    { s with loop_start := 0, loop_stop := 0 }
  else if s.loop_start ≠ 0 then
    let s2 := player_update s backendPos
    { s2 with loop_stop := s2.position }
  else
    let s2 := player_update s backendPos
    { s2 with loop_stop := 0, loop_start := s2.position }

/-- player_mark (player.c lines 74 to 77): marker is set to the result of
player_update, that is, to the freshly queried backend position, which is also
stored into position. -/
def player_mark (s : Player) (backendPos : Rat) : Player :=
  let s2 := player_update s backendPos
  { s2 with marker := s2.position }

/-- player_goto (player.c lines 79 to 92): dereferences current without a guard
to clamp the target to the track length, then clamps below by 0 and issues an
absolute seek. The none result marks the null dereference when no track is
loaded; otherwise the issued seek target is returned. -/
def player_goto (s : Player) (position : Rat) : Option Rat :=
  match s.current with
  | none => none
  | some t =>
    let p1 := if position > t.length then t.length else position
    let p2 := if p1 < 0 then 0 else p1
    some p2

/-- Events dispatched by player_event_handler (player.c lines 125 to 162):
property changes for time-pos, core-idle and length, log messages, shutdown. -/
inductive MpvEvent where
  | propTimePos (v : Rat)
  | propCoreIdle (b : Bool)
  | propLength (v : Rat)
  | logMessage
  | shutdown
deriving DecidableEq

/-- One dispatch step of player_event_handler (player.c lines 131 to 159).
The length branch writes through current without a guard; the none result
marks that null dereference when no track is loaded. -/
def player_handle_event (s : Player) : MpvEvent → Option Player
  | MpvEvent.propTimePos v => some { s with position := v }
  | MpvEvent.propCoreIdle b =>
      some { s with play_state := if b then PlayState.pause else PlayState.play }
  | MpvEvent.propLength v =>
      match s.current with
      | none => none
      | some t => some { s with current := some { t with length := v } }
  | MpvEvent.logMessage => some s
  | MpvEvent.shutdown => some s

/-- Start-position arithmetic of player_load_track (player.c lines 104 to 108):
clamp negative positions to 0, then add the 50 ms compensation exactly when the
clamped value is nonzero (the C test is the truthiness of the double). -/
def clampStart (position : Rat) : Rat :=
  let p := if position < 0 then 0 else position
  if p ≠ 0 then p + 50 / 1000 else p

/-- The async loadfile replace command issued by player_load_track: the uri of
the file and the numeric start position rendered into the start option. -/
structure LoadCmd where
  uri : String
  start : Rat
deriving DecidableEq

/-- player_load_track (player.c lines 101 to 123): clamps and offsets the start
position, sets current optimistically, and issues the async load-replace
command. The rendering of the position into the option string is abstracted;
the comma normalization pass over the rendered characters is normalize_sep. -/
def player_load_track (s : Player) (track : Track) (position : Rat) :
    Player × LoadCmd :=
  ({ s with current := some track },
   { uri := track.uri, start := clampStart position })

/-- The separator-normalization loop of player_load_track (player.c lines 113
to 115): every comma in the rendered option string is replaced by a dot, all
other characters are kept in place. -/
def normalize_sep : List Char → List Char
  | [] => []
  | c :: cs => (if c = ',' then '.' else c) :: normalize_sep cs

/-- Modelled from the spec: player_stop is called by selection_changed and
on_clicked_stop but its definition is not among the sources under examination
(only player.c fragments are present). Per the spec, stop only sends an async
stop command, so the local player state is unchanged by the call itself. -/
def player_stop (s : Player) : Player := s

/-- on_clicked_rtn (transport.c lines 178 to 183): the return-to-mark flag is
flipped only when the bookmark marker is unset (equal to 0.0), and the marker
is always cleared. -/
def on_clicked_rtn (s : Player) : Player :=
  let s2 := if s.marker = 0 then { s with rtn := !s.rtn } else s
  { s2 with marker := 0 }

/-- The glib MIN macro on doubles: the strictly smaller argument, the second
argument on ties. -/
def cMIN (a b : Rat) : Rat := if a < b then a else b

/-- GtkTreeViewDropPosition values dispatched by tracklist_add_track. -/
inductive DropPos where
  | before
  | intoOrBefore
  | after
  | intoOrAfter
deriving DecidableEq

/-- Row insertion of tracklist_add_track (tracklist.c lines 282 to 296): with a
valid anchor row, BEFORE and INTO_OR_BEFORE insert in front of it and the other
positions insert behind it; without a valid anchor the track is appended. -/
def insertTrack (l : List Track) (t : Track) (anchor : Option (Nat × DropPos)) :
    List Track :=
  match anchor with
  | none => l ++ [t]
  | some (i, pos) =>
    if i < l.length then
      match pos with
      | DropPos.before => l.take i ++ t :: l.drop i
      | DropPos.intoOrBefore => l.take i ++ t :: l.drop i
      | DropPos.after => l.take (i + 1) ++ t :: l.drop (i + 1)
      | DropPos.intoOrAfter => l.take (i + 1) ++ t :: l.drop (i + 1)
    else l ++ [t]

/-- The tracklist (struct Tracklist): the ordered rows of the list store with
their owned tracks, the incrementally maintained minimum loudness, and the
player the tracklist writes through. -/
structure Tracklist where
  tracks : List Track
  min_lufs : Rat
  player : Player
deriving DecidableEq

/-- tracklist_new (tracklist.c lines 100 to 132): empty list store, min_lufs
initialized to 0.0, the player reference stored untouched. -/
def tracklist_new (p : Player) : Tracklist :=
  { tracks := [], min_lufs := 0, player := p }

/-- tracklist_add_track (tracklist.c lines 266 to 314): inserts the row at the
requested position, then updates min_lufs to MIN of the old aggregate and the
new lufs, and mirrors the new aggregate into the player. -/
def tracklist_add_track (tl : Tracklist) (track : Track)
    (anchor : Option (Nat × DropPos)) : Tracklist :=
  let m := cMIN tl.min_lufs track.lufs
  { tracks := insertTrack tl.tracks track anchor,
    min_lufs := m,
    player := { tl.player with min_lufs := m } }

/-- The rescan loop of tracklist_update_min_lufs (tracklist.c lines 416 to
421): a left fold of MIN over the rows in order, with accumulator initialized
to 0.0. -/
def foldMin (ts : List Track) : Rat :=
  ts.foldl (fun m t => cMIN t.lufs m) 0

/-- tracklist_update_min_lufs (tracklist.c lines 399 to 429): when the list is
empty, min_lufs is reset to 0.0 and the function returns early without writing
the player field; otherwise the rescanned fold is stored in the tracklist and
mirrored into the player. -/
def tracklist_update_min_lufs (tl : Tracklist) : Tracklist :=
  match tl.tracks with
  | [] => { tl with min_lufs := 0 }
  | _ :: _ =>
    let m := foldMin tl.tracks
    { tl with min_lufs := m, player := { tl.player with min_lufs := m } }

/-- tracklist_remove_selected (tracklist.c lines 431 to 452): when a row is
selected, it is removed and its track destroyed, then the aggregate is
recomputed by tracklist_update_min_lufs; without a selection nothing happens.
The selection is the index of the selected row. -/
def tracklist_remove_selected (tl : Tracklist) (sel : Option Nat) : Tracklist :=
  match sel with
  | none => tl
  | some i =>
    if i < tl.tracks.length then
      tracklist_update_min_lufs { tl with tracks := tl.tracks.eraseIdx i }
    else tl

/-- A file handed to the ingestion pool: its path, the probed content type
(none when the query fails or reports no type) and the probed display name
(none when that query fails or reports no name). -/
structure GFile where
  path : String
  contentType : Option (List Char)
  displayName : Option String
deriving DecidableEq

/-- The ingestion failure taxonomy reported on the error channel. -/
inductive ProbeFailure where
  | probeError
  | notAudio
deriving DecidableEq

/-- Modelled from the spec: track_new lives in track.c, which is not among the
sources under examination. Per the spec a Track is created from the display
name and path with its duration left at the default unknown value; the probed
loudness fields are not observed by any claim on the success path and are
defaulted here. -/
def track_new (name : String) (path : String) : Track :=
  { name := name, uri := path, length := 0, lufs := 0, peak := 0 }

/-- Whether the second list is an initial segment of the first. -/
def listStartsWith : List Char → List Char → Bool
  | _, [] => true
  | [], _ :: _ => false
  | c :: cs, d :: ds => c = d && listStartsWith cs ds

/-- g_strstr_len semantics: whether the needle occurs contiguously anywhere in
the haystack. -/
def strstr : List Char → List Char → Bool
  | [], needle => needle.isEmpty
  | c :: rest, needle => listStartsWith (c :: rest) needle || strstr rest needle

/-- The audio-type test of tracklist_file_to_track (tracklist.c lines 342 to
343): the content type must contain audio or org.xiph.flac. -/
def audioType (ty : List Char) : Bool :=
  strstr ty ("audio".toList) || strstr ty ("org.xiph.flac".toList)

/-- tracklist_file_to_track (tracklist.c lines 316 to 371): a failed
content-type query reports one error and fails; a content type that is not a
recognized audio type reports one NotAudio error and fails; a failed
display-name query reports one error and fails; otherwise a track is created.
The result carries the produced track, if any, and the errors printed on the
error channel. -/
def tracklist_file_to_track (f : GFile) : Option Track × List ProbeFailure :=
  match f.contentType with
  | none => (none, [ProbeFailure.probeError])
  | some ty =>
    if audioType ty then
      match f.displayName with
      | none => (none, [ProbeFailure.probeError])
      | some name => (some (track_new name f.path), [])
    else (none, [ProbeFailure.notAudio])

/-- load_async (tracklist.c lines 520 to 541): the worker extracts the anchor
captured at submission time, turns the file into a track, and inserts it only
when the probe succeeded; a failed probe leaves the tracklist untouched. -/
def load_async (tl : Tracklist) (f : GFile) (anchor : Option (Nat × DropPos)) :
    Tracklist × List ProbeFailure :=
  match tracklist_file_to_track f with
  | (some track, errs) => (tracklist_add_track tl track anchor, errs)
  | (none, errs) => (tl, errs)

/-- selection_changed (tracklist.c lines 499 to 518): without a selection the
player is stopped and current cleared; with a selected row its track is handed
to player_load_track. The C call site passes no position argument although
player_load_track takes three parameters, so the position received by the load
is indeterminate; that indeterminate third argument is the junk parameter. -/
def selection_changed (tl : Tracklist) (sel : Option Nat) (junk : Rat) :
    Player × Option LoadCmd :=
  match sel with
  | none => ({ player_stop tl.player with current := none }, none)
  | some i =>
    match tl.tracks.get? i with
    | none => (tl.player, none)
    | some t =>
      let r := player_load_track tl.player t junk
      (r.1, some r.2)

/-- Modelled from the spec: the track-selection start-position policy that the
spec attributes to the selection handler, absent from the C call site: the
bookmark marker when set, else 0 when return-to-mark is enabled, else the last
known backend position. -/
def specSelectStart (p : Player) : Rat :=
  if p.marker ≠ 0 then p.marker else if p.rtn then 0 else p.position

/-- The minimum loudness the spec asserts for the aggregate: the least lufs
over the present tracks, and 0.0 for the empty playlist. -/
def specMinLoudness : List Track → Rat
  | [] => 0
  | t :: ts => ts.foldl (fun m u => min u.lufs m) t.lufs

/-- A sequence of insertions applied in order, each with its own anchor. -/
def applyAdds : Tracklist → List (Track × Option (Nat × DropPos)) → Tracklist
  | tl, [] => tl
  | tl, x :: rest => applyAdds (tracklist_add_track tl x.1 x.2) rest

/-- A player state with nothing initialized beyond player_init. -/
def p0 : Player := player_init 0

/-- A track with positive integrated loudness. -/
def tPos : Track := { name := "pos", uri := "pos.wav", length := 0, lufs := 1, peak := 0 }

/-- A quiet track at minus five LUFS. -/
def tA : Track := { name := "a", uri := "a.wav", length := 0, lufs := -5, peak := 0 }

/-- A quiet track at minus three LUFS. -/
def tB : Track := { name := "b", uri := "b.wav", length := 0, lufs := -3, peak := 0 }

/-- A two-track playlist built by appending tA then tB. -/
def tlW : Tracklist := applyAdds (tracklist_new p0) [(tA, none), (tB, none)]

/-- A one-track playlist built by appending tA. -/
def tl8 : Tracklist := applyAdds (tracklist_new p0) [(tA, none)]

/-- A player carrying a bookmark at 12 seconds and a last known position of 7. -/
def p12 : Player := { p0 with marker := 12, position := 7 }

/-- A one-track playlist whose player carries the bookmark at 12 seconds. -/
def tl12 : Tracklist := { tracks := [tA], min_lufs := -5, player := p12 }

/-- A submitted file whose probed content type is text/plain. -/
def fPlain : GFile :=
  { path := "/a.wav", contentType := some ("text/plain".toList),
    displayName := some "a.wav" }

/-- A player whose last notified position is 3 seconds. -/
def s3 : Player := { p0 with position := 3 }

/-- A player whose last notified position is 7 seconds. -/
def s7 : Player := { p0 with position := 7 }

/-- The C MIN macro agrees with the mathematical minimum on rationals. -/
theorem cMIN_eq_min (a b : Rat) : cMIN a b = min a b := by
  unfold cMIN
  rcases lt_or_ge a b with h | h
  · rw [if_pos h, min_eq_left h.le]
  · rw [if_neg (not_lt.mpr h), min_eq_right h]

/-- Folding MIN from a MIN of two values pulls the first value out of the
fold. -/
theorem foldl_min_pull (l : List Track) : ∀ a init : Rat,
    l.foldl (fun m u => min u.lufs m) (min a init)
      = min a (l.foldl (fun m u => min u.lufs m) init) := by
  induction l with
  | nil => intro a init; rfl
  | cons u l ih =>
    intro a init
    simp only [List.foldl_cons]
    rw [min_left_comm u.lufs a init, ih]

/-- Folding MIN over a list with one element inserted in the middle equals the
MIN of that element with the fold over the list without it. -/
theorem foldl_min_insert (l1 l2 : List Track) (t : Track) :
    ∀ init : Rat,
      (l1 ++ t :: l2).foldl (fun m u => min u.lufs m) init
        = min t.lufs ((l1 ++ l2).foldl (fun m u => min u.lufs m) init) := by
  induction l1 with
  | nil =>
    intro init
    simp only [List.nil_append, List.foldl_cons]
    exact foldl_min_pull l2 t.lufs init
  | cons u l1 ih =>
    intro init
    simp only [List.cons_append, List.foldl_cons]
    exact ih (min u.lufs init)

/-- The rescan fold over a list produced by insertTrack equals the MIN of the
inserted lufs with the rescan fold over the original list. -/
theorem foldMin_insertTrack (l : List Track) (t : Track)
    (a : Option (Nat × DropPos)) :
    foldMin (insertTrack l t a) = min t.lufs (foldMin l) := by
  have happ : foldMin (l ++ [t]) = min t.lufs (foldMin l) := by
    have h := foldl_min_insert l [] t 0
    rw [List.append_nil] at h
    simp only [foldMin, cMIN_eq_min]
    exact h
  have hmid : ∀ k : Nat,
      foldMin (l.take k ++ t :: l.drop k) = min t.lufs (foldMin l) := by
    intro k
    have h := foldl_min_insert (l.take k) (l.drop k) t 0
    rw [List.take_append_drop] at h
    simpa [foldMin, cMIN_eq_min] using h
  cases a with
  | none => simpa [insertTrack] using happ
  | some ip =>
    obtain ⟨i, pos⟩ := ip
    by_cases h : i < l.length
    · cases pos <;> simp only [insertTrack, if_pos h] <;>
        first
          | exact hmid i
          | exact hmid (i + 1)
    · simpa [insertTrack, if_neg h] using happ

/-- Along any sequence of insertions, the incrementally maintained aggregate
stays equal to the rescan fold over the present tracks. -/
theorem applyAdds_invariant (ops : List (Track × Option (Nat × DropPos))) :
    ∀ tl : Tracklist, tl.min_lufs = foldMin tl.tracks →
      (applyAdds tl ops).min_lufs = foldMin (applyAdds tl ops).tracks := by
  induction ops with
  | nil => intro tl h; exact h
  | cons x ops ih =>
    intro tl h
    refine ih (tracklist_add_track tl x.1 x.2) ?_
    show cMIN tl.min_lufs x.1.lufs = foldMin (insertTrack tl.tracks x.1 x.2)
    rw [foldMin_insertTrack, cMIN_eq_min, h, min_comm]

/-- When every lufs in the list is nonpositive, the rescan fold that starts
from 0.0 computes the true minimum over the list, and 0.0 on the empty list. -/
theorem foldMin_eq_specMin (ts : List Track) (h : ∀ t ∈ ts, t.lufs ≤ 0) :
    foldMin ts = specMinLoudness ts := by
  cases ts with
  | nil => rfl
  | cons t ts =>
    have ht : t.lufs ≤ 0 := h t (List.mem_cons_self t ts)
    simp only [foldMin, specMinLoudness, List.foldl_cons, cMIN_eq_min]
    rw [min_eq_left ht]

/-- Membership in a list with one element inserted in the middle. -/
theorem mem_insert_middle (l : List Track) (t u : Track) (k : Nat)
    (hu : u ∈ l.take k ++ t :: l.drop k) : u = t ∨ u ∈ l := by
  rcases List.mem_append.mp hu with h | h
  · exact Or.inr (List.take_subset k l h)
  · rcases List.mem_cons.mp h with h | h
    · exact Or.inl h
    · exact Or.inr (List.drop_subset k l h)

/-- Membership in the result of insertTrack. -/
theorem mem_insertTrack (l : List Track) (t u : Track)
    (a : Option (Nat × DropPos)) (hu : u ∈ insertTrack l t a) :
    u = t ∨ u ∈ l := by
  have happ : u ∈ l ++ [t] → u = t ∨ u ∈ l := by
    intro h
    rcases List.mem_append.mp h with h | h
    · exact Or.inr h
    · exact Or.inl (List.mem_singleton.mp h)
  cases a with
  | none => exact happ (by simpa [insertTrack] using hu)
  | some ip =>
    obtain ⟨i, pos⟩ := ip
    by_cases h : i < l.length
    · cases pos <;> simp only [insertTrack, if_pos h] at hu <;>
        first
          | exact mem_insert_middle l t u i hu
          | exact mem_insert_middle l t u (i + 1) hu
    · exact happ (by simpa [insertTrack, if_neg h] using hu)

/-- A sequence of insertions of nonpositive-lufs tracks into a
nonpositive-lufs playlist leaves every present lufs nonpositive. -/
theorem applyAdds_lufs_nonpos (ops : List (Track × Option (Nat × DropPos))) :
    ∀ tl : Tracklist, (∀ t ∈ tl.tracks, t.lufs ≤ 0) →
      (∀ x ∈ ops, x.1.lufs ≤ 0) →
      ∀ t ∈ (applyAdds tl ops).tracks, t.lufs ≤ 0 := by
  induction ops with
  | nil => intro tl hs _ t ht; exact hs t ht
  | cons x ops ih =>
    intro tl hs hops
    refine ih (tracklist_add_track tl x.1 x.2) ?_ ?_
    · intro t ht
      have ht2 : t ∈ insertTrack tl.tracks x.1 x.2 := ht
      rcases mem_insertTrack tl.tracks x.1 t x.2 ht2 with h | h
      · rw [h]; exact hops x (List.mem_cons_self x ops)
      · exact hs t h
    · intro y hy
      exact hops y (List.mem_cons_of_mem x hy)

/-- The recompute entry point reduces to the rescan fold on any tracklist. -/
theorem update_min_lufs_eq_foldMin (tl : Tracklist) :
    (tracklist_update_min_lufs tl).min_lufs = foldMin tl.tracks := by
  unfold tracklist_update_min_lufs
  cases htr : tl.tracks with
  | nil => simp [htr, foldMin]
  | cons a l => simp [htr]


/-- Claim C1 counterexample: inserting a single track with positive lufs into
the empty playlist leaves the aggregate at 0.0 while the minimum lufs over the
present tracks is 1, so the claimed equality for arbitrary lufs is false. -/
theorem add_track_positive_lufs_cex :
    (tracklist_add_track (tracklist_new p0) tPos none).min_lufs
      ≠ specMinLoudness (tracklist_add_track (tracklist_new p0) tPos none).tracks := by
  decide

/-- Claim C1 (amended): for every sequence of insert operations starting from
the empty playlist in which every inserted track has nonpositive loudnessLUFS,
the aggregate after each insertion equals the minimum loudnessLUFS over the
currently present tracks, and it equals 0.0 when the playlist is empty. -/
theorem min_lufs_insert_invariant (p : Player)
    (ops : List (Track × Option (Nat × DropPos)))
    (h : ∀ x ∈ ops, x.1.lufs ≤ 0) :
    (applyAdds (tracklist_new p) ops).min_lufs
      = specMinLoudness (applyAdds (tracklist_new p) ops).tracks
    ∧ (tracklist_new p).min_lufs = specMinLoudness [] := by
  constructor
  · have hbase : (tracklist_new p).min_lufs = foldMin (tracklist_new p).tracks := rfl
    rw [applyAdds_invariant ops (tracklist_new p) hbase]
    refine foldMin_eq_specMin _ ?_
    refine applyAdds_lufs_nonpos ops (tracklist_new p) ?_ h
    intro t ht
    exact absurd ht (List.not_mem_nil t)
  · rfl

/-- Claim C1 witness: the amended invariant evaluated on the concrete
two-insert sequence appending tA and tB. -/
theorem min_lufs_insert_invariant_witness :
    (applyAdds (tracklist_new p0) [(tA, none), (tB, none)]).min_lufs
      = specMinLoudness (applyAdds (tracklist_new p0) [(tA, none), (tB, none)]).tracks :=
  (min_lufs_insert_invariant p0 [(tA, none), (tB, none)] (by decide)).1

/-- Claim C2: removing any entry of a non-empty playlist recomputes the
aggregate as the full rescan of the remaining tracks. The recomputed value is
the rescan fold over the remaining rows, it is independent of the previously
stored aggregate (in particular of whether the removed track held the previous
minimum), it is 0.0 when no track remains, and whenever every remaining lufs
is nonpositive it equals the true minimum over the remaining tracks. -/
theorem remove_recompute_full_scan (tl : Tracklist) (i : Nat)
    (h : i < tl.tracks.length) :
    (tracklist_remove_selected tl (some i)).min_lufs
      = foldMin (tl.tracks.eraseIdx i)
    ∧ (∀ m : Rat,
        (tracklist_remove_selected { tl with min_lufs := m } (some i)).min_lufs
          = (tracklist_remove_selected tl (some i)).min_lufs)
    ∧ (tl.tracks.eraseIdx i = [] →
        (tracklist_remove_selected tl (some i)).min_lufs = 0)
    ∧ ((∀ t ∈ tl.tracks.eraseIdx i, t.lufs ≤ 0) →
        (tracklist_remove_selected tl (some i)).min_lufs
          = specMinLoudness (tl.tracks.eraseIdx i)) := by
  have key : ∀ tl2 : Tracklist, tl2.tracks = tl.tracks →
      (tracklist_remove_selected tl2 (some i)).min_lufs
        = foldMin (tl.tracks.eraseIdx i) := by
    intro tl2 htr
    have hred : tracklist_remove_selected tl2 (some i)
        = if i < tl2.tracks.length then
            tracklist_update_min_lufs { tl2 with tracks := tl2.tracks.eraseIdx i }
          else tl2 := rfl
    rw [hred, htr, if_pos h]
    exact update_min_lufs_eq_foldMin { tl2 with tracks := tl.tracks.eraseIdx i }
  refine ⟨key tl rfl, ?_, ?_, ?_⟩
  · intro m
    rw [key { tl with min_lufs := m } rfl, key tl rfl]
  · intro he
    rw [key tl rfl, he]
    rfl
  · intro hle
    rw [key tl rfl]
    exact foldMin_eq_specMin _ hle

/-- Claim C2 witness: removing the first track of the concrete two-track
playlist recomputes the aggregate as the rescan of the remaining track. -/
theorem remove_recompute_full_scan_witness :
    (tracklist_remove_selected tlW (some 0)).min_lufs
      = foldMin (tlW.tracks.eraseIdx 0) :=
  (remove_recompute_full_scan tlW 0 (by decide)).1

/-- Claim C8 (code_bug evaluation): removing the only track of a one-track
playlist empties it and resets the tracklist aggregate to 0.0, but the early
return of tracklist_update_min_lufs skips the player write, so the player
loudness floor keeps the stale value minus five and no longer mirrors the
aggregate. -/
theorem remove_empty_stale_player_floor :
    (tracklist_remove_selected tl8 (some 0)).tracks = []
    ∧ (tracklist_remove_selected tl8 (some 0)).min_lufs = 0
    ∧ (tracklist_remove_selected tl8 (some 0)).player.min_lufs = -5
    ∧ (tracklist_remove_selected tl8 (some 0)).player.min_lufs
        ≠ (tracklist_remove_selected tl8 (some 0)).min_lufs := by
  decide

/-- Claim C3 counterexample: from the no-loop state, three consecutive
toggleLoop calls at reported positions 1, 0 and 0 do not return to the no-loop
state: the second call marks the stop point with the value 0, which the
truthiness tests treat as unset, so the cycle stalls with loop_start still 1. -/
theorem player_loop_cycle_cex :
    ¬ ((player_loop (player_loop (player_loop p0 1) 0) 0).loop_start = 0
       ∧ (player_loop (player_loop (player_loop p0 1) 0) 0).loop_stop = 0) := by
  decide

/-- Claim C3 (amended): toggleLoop implements the three-phase cycle with a
marker counted as set exactly when it is nonzero. From a state with no loop
markers set, provided the positions reported at the first and the second call
are nonzero, a single call sets only loopStart and three consecutive calls
return to the no-loop state. -/
theorem player_loop_cycle (s : Player) (p1 p2 p3 : Rat)
    (hs : s.loop_start = 0 ∧ s.loop_stop = 0) (h1 : p1 ≠ 0) (h2 : p2 ≠ 0) :
    (player_loop s p1).loop_start = p1
    ∧ (player_loop s p1).loop_stop = 0
    ∧ (player_loop (player_loop s p1) p2).loop_start = p1
    ∧ (player_loop (player_loop s p1) p2).loop_stop = p2
    ∧ (player_loop (player_loop (player_loop s p1) p2) p3).loop_start = 0
    ∧ (player_loop (player_loop (player_loop s p1) p2) p3).loop_stop = 0 := by
  obtain ⟨hs1, hs2⟩ := hs
  have step1 : player_loop s p1
      = { s with loop_stop := 0, loop_start := p1, position := p1 } := by
    simp [player_loop, player_update, hs1]
  have step2 : player_loop (player_loop s p1) p2
      = { s with loop_stop := p2, loop_start := p1, position := p2 } := by
    rw [step1]
    simp [player_loop, player_update, h1]
  have step3 : player_loop (player_loop (player_loop s p1) p2) p3
      = { s with loop_stop := 0, loop_start := 0, position := p2 } := by
    rw [step2]
    simp [player_loop, player_update, h1, h2]
  rw [step3, step2, step1]
  exact ⟨rfl, rfl, rfl, rfl, rfl, rfl⟩

/-- Claim C3 witness: the amended cycle evaluated from the freshly initialized
player at the nonzero reported positions 1, 2 and 3. -/
theorem player_loop_cycle_witness :
    (player_loop p0 1).loop_start = 1
    ∧ (player_loop p0 1).loop_stop = 0
    ∧ (player_loop (player_loop p0 1) 2).loop_start = 1
    ∧ (player_loop (player_loop p0 1) 2).loop_stop = 2
    ∧ (player_loop (player_loop (player_loop p0 1) 2) 3).loop_start = 0
    ∧ (player_loop (player_loop (player_loop p0 1) 2) 3).loop_stop = 0 :=
  player_loop_cycle p0 1 2 3 ⟨rfl, rfl⟩ (by decide) (by decide)

/-- Claim C5 counterexample: with the last notified position equal to 3 and
the backend holding 5 at the moment of the call, player_mark stores 5 and not
the last notified value 3, because it re-queries the backend through
player_update. -/
theorem player_mark_requery_cex :
    (player_mark s3 5).marker ≠ 3 ∧ s3.position = 3 := by
  decide

/-- Claim C5 (amended): markBookmark re-queries the backend synchronously at
the moment of the call and sets bookmarkMarker to that freshly queried
position, also storing it into positionSeconds; whenever the fresh value
differs from the last notified position, the recorded marker differs from the
last notified position. -/
theorem player_mark_requeries (s : Player) (backendPos : Rat) :
    (player_mark s backendPos).marker = backendPos
    ∧ (player_mark s backendPos).position = backendPos
    ∧ (backendPos ≠ s.position →
        (player_mark s backendPos).marker ≠ s.position) := by
  refine ⟨rfl, rfl, ?_⟩
  intro h
  simpa [player_mark, player_update] using h

/-- Claim C5 witness: the amended statement evaluated with last notified
position 7 and fresh backend position 9. -/
theorem player_mark_requeries_witness :
    (player_mark s7 9).marker ≠ s7.position :=
  (player_mark_requeries s7 9).2.2 (by decide)

/-- Claim C9: player_goto and the length branch of the event handler both go
through current without a guard, so the operation is well defined exactly when
a track is currently loaded: the issued seek target exists if and only if
current is set, and the state after a duration update exists if and only if
current is set. -/
theorem current_track_unstated_precondition (s : Player) (pos v : Rat) :
    ((player_goto s pos).isSome ↔ s.current.isSome)
    ∧ ((player_handle_event s (MpvEvent.propLength v)).isSome ↔ s.current.isSome) := by
  cases h : s.current <;> simp [player_goto, player_handle_event, h]

/-- Claim C10: the value 0.0 is the unset sentinel. A toggleLoop call at
reported position 0.0 from the no-markers phase leaves both loop markers
unset; a bookmark recorded at position 0.0 equals the unset value, and the
return-to-mark click then flips the flag exactly as when no bookmark exists,
whereas with a nonzero bookmark the flag is left alone. -/
theorem zero_position_sentinel (s : Player) :
    (s.loop_start = 0 →
      (player_loop s 0).loop_start = 0 ∧ (player_loop s 0).loop_stop = 0)
    ∧ (player_mark s 0).marker = 0
    ∧ (on_clicked_rtn (player_mark s 0)).rtn = !s.rtn
    ∧ (on_clicked_rtn (player_mark s 0)).marker = 0
    ∧ (s.marker ≠ 0 → (on_clicked_rtn s).rtn = s.rtn) := by
  refine ⟨?_, rfl, ?_, rfl, ?_⟩
  · intro hs1
    constructor <;> simp [player_loop, player_update, hs1]
  · simp [on_clicked_rtn, player_mark, player_update]
  · intro hm
    simp [on_clicked_rtn, hm]

/-- Claim C10 witness: the sentinel behavior evaluated on the freshly
initialized player, whose loop markers are unset. -/
theorem zero_position_sentinel_witness :
    (player_loop p0 0).loop_start = 0 ∧ (player_loop p0 0).loop_stop = 0 :=
  (zero_position_sentinel p0).1 rfl

/-- The normalization pass leaves no comma in its output. -/
theorem normalize_sep_no_comma (l : List Char) :
    ∀ c ∈ normalize_sep l, c ≠ ',' := by
  induction l with
  | nil => intro c hc; cases hc
  | cons d ds ih =>
    intro c hc
    rcases List.mem_cons.mp hc with h | h
    · subst h
      by_cases hd : d = ','
      · rw [if_pos hd]; decide
      · rw [if_neg hd]; exact hd
    · exact ih c h

/-- The normalization pass maps each character in place, turning exactly the
commas into dots. -/
theorem normalize_sep_eq_map (l : List Char) :
    normalize_sep l = l.map (fun c => if c = ',' then '.' else c) := by
  induction l with
  | nil => rfl
  | cons d ds ih => simp [normalize_sep, ih]

/-- The clamp-and-offset arithmetic at 0 issues exactly 0: no offset. -/
theorem clampStart_zero : clampStart 0 = 0 := by
  norm_num [clampStart]

/-- The clamp-and-offset arithmetic at 5.2 issues exactly 5.25. -/
theorem clampStart_52 : clampStart (26 / 5) = 21 / 4 := by
  norm_num [clampStart]

/-- Claim C6: player_load_track clamps the start position to at least 0,
applies the fixed 50 ms compensation exactly when the clamped start is
nonzero, and the separator pass replaces every comma by a dot while keeping
every other character in place; in particular a load at 0 issues start 0 with
no offset and a load at 5.2 issues start 5.25. -/
theorem load_track_position_policy (s : Player) (t : Track) (p : Rat)
    (l : List Char) :
    0 ≤ (player_load_track s t p).2.start
    ∧ (p ≤ 0 → (player_load_track s t p).2.start = 0)
    ∧ (0 < p → (player_load_track s t p).2.start = p + 1 / 20)
    ∧ (player_load_track s t 0).2.start = 0
    ∧ (player_load_track s t (26 / 5)).2.start = 21 / 4
    ∧ (∀ c ∈ normalize_sep l, c ≠ ',')
    ∧ normalize_sep l = l.map (fun c => if c = ',' then '.' else c) := by
  have hstart : ∀ q : Rat, (player_load_track s t q).2.start = clampStart q :=
    fun q => rfl
  refine ⟨?_, ?_, ?_, by rw [hstart]; exact clampStart_zero,
    by rw [hstart]; exact clampStart_52,
    normalize_sep_no_comma l, normalize_sep_eq_map l⟩
  · rw [hstart]
    unfold clampStart
    by_cases hp : p < 0
    · simp [hp]
    · by_cases h0 : p = 0
      · simp [h0]
      · rw [if_neg hp, if_pos h0]
        have hp2 : 0 ≤ p := not_lt.mp hp
        linarith
  · intro hle
    rw [hstart]
    unfold clampStart
    by_cases hp : p < 0
    · simp [hp]
    · have h0 : p = 0 := le_antisymm hle (not_lt.mp hp)
      simp [h0]
  · intro hpos
    rw [hstart]
    unfold clampStart
    rw [if_neg (not_lt.mpr hpos.le), if_pos (ne_of_gt hpos)]
    norm_num

/-- Claim C6 witness: the load at 5.2 seconds evaluated concretely issues
start position 5.25. -/
theorem load_track_position_policy_witness :
    (player_load_track p0 tA (26 / 5)).2.start = 21 / 4 :=
  (load_track_position_policy p0 tA (26 / 5) []).2.2.2.2.1

/-- Claim C7: a submitted file whose probed content type is not a recognized
audio type is dropped: the worker reports exactly one NotAudio error and the
tracklist, including its track sequence, its aggregate and its player, is
returned entirely unchanged, with no partial insertion. -/
theorem notaudio_drops_request (tl : Tracklist) (f : GFile)
    (a : Option (Nat × DropPos)) (ty : List Char)
    (hty : f.contentType = some ty) (hna : audioType ty = false) :
    load_async tl f a = (tl, [ProbeFailure.notAudio]) := by
  have hft : tracklist_file_to_track f = (none, [ProbeFailure.notAudio]) := by
    unfold tracklist_file_to_track
    rw [hty]
    simp [hna]
  unfold load_async
  rw [hft]

/-- Claim C7 witness: submitting the concrete text/plain file to the concrete
two-track playlist drops the request with a single NotAudio error and leaves
the playlist unchanged. -/
theorem notaudio_drops_request_witness :
    load_async tlW fPlain none = (tlW, [ProbeFailure.notAudio]) :=
  notaudio_drops_request tlW fPlain none ("text/plain".toList) rfl (by decide)

/-- Claim C4 (code_bug evaluation): the spec policy computes start position 12
from the bookmark, but the C call site of selection_changed passes no position
argument to the three-parameter player_load_track, so the issued start depends
only on the indeterminate third argument and not on the bookmark; with the
indeterminate argument read as 0 the issued start is 0, not the nonzero value
the policy requires. -/
theorem selection_changed_drops_start_position :
    specSelectStart p12 = 12
    ∧ (∀ junk : Rat, (selection_changed tl12 (some 0) junk).2
        = some { uri := tA.uri, start := clampStart junk })
    ∧ (selection_changed tl12 (some 0) 0).2 = some { uri := tA.uri, start := 0 }
    ∧ clampStart (specSelectStart p12) ≠ 0 := by
  have h1 : specSelectStart p12 = 12 := by decide
  refine ⟨h1, fun junk => rfl, ?_, ?_⟩
  · have h2 : (selection_changed tl12 (some 0) 0).2
        = some { uri := tA.uri, start := clampStart 0 } := rfl
    rw [h2, clampStart_zero]
  · rw [h1]
    norm_num [clampStart]
